import Mathlib

/-!
Verification of debuggerd/backtrace.cpp : backtrace dump and core-dump escalation

A shallow embedding of `src/debuggerd/backtrace.cpp`.

* C strings and `std::string` values are lists of byte values (`CStr`).
* The four globals read or written by the file (`coredump_enabled`,
  `victim_thread`, `force_coredump_generation`, `coredump_signal`) are fields
  of `State`; they are declared outside this file and are therefore ambient
  inputs of every operation.
* `_LOG(log, logtype::BACKTRACE, ...)` appends one formatted chunk to
  `State.log`; `ALOGI` / `ALOGE` append one record to `State.alog`.
* The unwinder, the `/proc` records, the clock and `ABI_STRING` are external
  and are supplied by `Env`.
-/

namespace Debuggerd

/-- A C character sequence, as the list of its byte values. -/
abbrev CStr := List Nat

/-- A string literal of the source, as bytes (the literals are ASCII). -/
def lit (s : String) : CStr := s.toList.map Char.toNat

/-- The constant `#define MAX_FRAMES_FROM_TOP_TO_CHECK 7`. -/
def MAX_FRAMES_FROM_TOP_TO_CHECK : Nat := 7

/-- The constant `#define LIB_ART_NAME "libart"`. -/
def LIB_ART_NAME : CStr := lit "libart"

/-- Signal number of `SIGABRT` (from `<signal.h>`). -/
def SIGABRT : Int := 6

/-- Signal number of `SIGSEGV` (from `<signal.h>`). -/
def SIGSEGV : Int := 11

/-- The libc `tolower` in the C locale: `A`..`Z` go to `a`..`z`, every other
value is returned unchanged. -/
def tolower (c : Nat) : Nat := if 65 ≤ c ∧ c ≤ 90 then c + 32 else c

/-- The search loop of `std::string::find(const char*)`: the position of the
first occurrence of `pat` at or after the current position `pos`, `none`
standing for `std::string::npos`. -/
def find_from (pat : CStr) : Nat → CStr → Option Nat
  | pos, [] => if pat.isPrefixOf [] then some pos else none
  | pos, c :: cs =>
    if pat.isPrefixOf (c :: cs) then some pos else find_from pat (pos + 1) cs

/-- The call `s.find(pat)` on a `std::string`. -/
def find (s pat : CStr) : Option Nat := find_from pat 0 s

/-- What `printf("%s", p)` prints for a `char*`: the bytes before the first
NUL. -/
def c_str (s : CStr) : CStr := s.takeWhile (fun c => c != 0)

/-- What `printf("%d", n)` prints. -/
def fmt_d (n : Int) : CStr :=
  match n with
  | Int.ofNat k => (Nat.toDigits 10 k).map Char.toNat
  | Int.negSucc k => 45 :: (Nat.toDigits 10 (k + 1)).map Char.toNat

/-- The bytes `fgets` consumes from a stream before the size bound applies:
everything up to and including the first newline. -/
def fgets_line : CStr → CStr
  | [] => []
  | c :: cs => if c = 10 then [c] else c :: fgets_line cs

/-- The call `fgets(buf, size, fp)` on a freshly opened file with the given
contents: `none` (NULL) when end of file comes before any byte, otherwise the
bytes up to and including the first newline, at most `size - 1` of them. -/
def fgets (size : Nat) (content : CStr) : Option CStr :=
  if content = [] then none else some ((fgets_line content).take (size - 1))

/-- One record of the Android log written through `ALOGI` / `ALOGE`, kept as
the message and its arguments. -/
inductive ALogLine where
  /-- The record "coredump_criteria: checking backtrace-frame %d in victim thread, signal = %d". -/
  | checking (frame_num : Int) (signal : Int)
  /-- The record "coredump_criteria: found %s in first frame, coredump-criteria met". -/
  | first_frame_met
  /-- The record "coredump_criteria: found %s and signal=SIGABRT, coredump-criteria met". -/
  | sigabrt_met
  /-- The record "Unwind failed: tid = %d: %s". -/
  | unwind_failed (tid : Int) (err : CStr)
  deriving DecidableEq, Repr

/-- The globals the file reads and writes, together with its two outputs. -/
structure State where
  /-- Global `coredump_enabled`. -/
  coredump_enabled : Bool
  /-- Global `victim_thread`. -/
  victim_thread : Bool
  /-- Global `force_coredump_generation`. -/
  force_coredump_generation : Bool
  /-- Global `coredump_signal`. -/
  coredump_signal : Int
  /-- Chunks written through `_LOG(log, logtype::BACKTRACE, ...)`, oldest first. -/
  log : List CStr
  /-- Records written through `ALOGI` / `ALOGE`, oldest first. -/
  alog : List ALogLine
  deriving DecidableEq, Repr

/-- A `Backtrace` object after `Backtrace::Create`. -/
structure Backtrace where
  /-- Result of `Unwind(0)`. -/
  unwind_ok : Bool
  /-- The texts `FormatFrameData(0)`, ..., `FormatFrameData(NumFrames() - 1)`. -/
  frames : List CStr
  /-- The text `GetErrorString(GetError())`. -/
  error : CStr

/-- The external collaborators of one dump session. -/
structure Env where
  /-- Contents of `/proc/<pid>/cmdline`; `none` when `fopen` fails. -/
  cmdline : Int → Option CStr
  /-- Contents of `/proc/<tid>/comm`; `none` when `fopen` fails. -/
  comm : Int → Option CStr
  /-- The local time formatted by `strftime` with "%F %T". -/
  timestr : CStr
  /-- The build-time macro `ABI_STRING`. -/
  ABI_STRING : CStr
  /-- The call `Backtrace::Create(pid, tid, map)` followed by `Unwind(0)`. -/
  create : Int → Int → Backtrace

/-- The macro `_LOG(log, logtype::BACKTRACE, ...)` with its formatted text. -/
def _LOG (st : State) (text : CStr) : State := { st with log := st.log ++ [text] }

/-- The macros `ALOGI` and `ALOGE`. -/
def ALOG (st : State) (l : ALogLine) : State := { st with alog := st.alog ++ [l] }

/-- The function `check_coredump_criteria(std::string log, int frame_num)`. -/
def check_coredump_criteria (log : CStr) (frame_num : Int) (st : State) : State :=
  let st := ALOG st (.checking frame_num st.coredump_signal)
  let log := log.map tolower
  let found := find log LIB_ART_NAME
  if found ≠ none ∧ frame_num = 0 then
    { ALOG st .first_frame_met with force_coredump_generation := true }
  else if found ≠ none ∧ st.coredump_signal = SIGABRT then
    { ALOG st .sigabrt_met with force_coredump_generation := true }
  else
    st

/-- The body of the loop of `dump_backtrace_to_log` for frame `i`, whose text
`FormatFrameData(i)` is `frame`: the gated call of `check_coredump_criteria`,
then the frame line. -/
def dump_frame (pfx : CStr) (i : Nat) (frame : CStr) (st : State) : State :=
  let st :=
    if st.coredump_enabled && st.victim_thread &&
        (!st.force_coredump_generation) && decide (i < MAX_FRAMES_FROM_TOP_TO_CHECK) then
      check_coredump_criteria frame (i : Int) st
    else st
  _LOG st (c_str pfx ++ c_str frame ++ lit "\n")

/-- The loop of `dump_backtrace_to_log`, at index `i` with the texts of the
frames `i`, `i + 1`, ..., `NumFrames() - 1` still to be visited. -/
def dump_frames (pfx : CStr) : Nat → List CStr → State → State
  | _, [], st => st
  | i, frame :: rest, st => dump_frames pfx (i + 1) rest (dump_frame pfx i frame st)

/-- The function `dump_backtrace_to_log(backtrace, log, prefix)`. -/
def dump_backtrace_to_log (backtrace : Backtrace) (pfx : CStr) (st : State) : State :=
  dump_frames pfx 0 backtrace.frames st

/-- The function `dump_process_header(log, pid)`. -/
def dump_process_header (env : Env) (pid : Int) (st : State) : State :=
  let procname : Option CStr :=
    match env.cmdline pid with
    | some content => fgets 1024 content
    | none => none
  let st := _LOG st (lit "\n\n----- pid " ++ fmt_d pid ++ lit " at " ++ c_str env.timestr ++ lit " -----\n")
  let st :=
    match procname with
    | some p => _LOG st (lit "Cmd line: " ++ c_str p ++ lit "\n")
    | none => st
  _LOG st (lit "ABI: '" ++ c_str env.ABI_STRING ++ lit "'\n")

/-- The function `dump_process_footer(log, pid)`. -/
def dump_process_footer (pid : Int) (st : State) : State :=
  _LOG st (lit "\n----- end " ++ fmt_d pid ++ lit " -----\n")

/-- The newline stripping of `dump_thread`: `len = strlen(threadname)`, and the
last byte is dropped when `len` is not zero and that byte is a newline. The
result is the C string left in the buffer. -/
def strip_newline (buf : CStr) : CStr :=
  let s := c_str buf
  if s.length ≠ 0 ∧ s.getLast? = some 10 then s.dropLast else s

/-- The function `dump_thread(log, map, pid, tid)`. -/
def dump_thread (env : Env) (pid tid : Int) (st : State) : State :=
  let threadname : Option CStr :=
    match env.comm tid with
    | some content =>
      match fgets 1024 content with
      | some buf => some (strip_newline buf)
      | none => none
    | none => none
  let st := _LOG st (lit "\n\"" ++ threadname.getD (lit "<unknown>") ++ lit "\" sysTid=" ++ fmt_d tid ++ lit "\n")
  let backtrace := env.create pid tid
  if backtrace.unwind_ok then
    dump_backtrace_to_log backtrace (lit "  ") st
  else
    ALOG st (.unwind_failed tid backtrace.error)

/-- The function `dump_backtrace(fd, map, pid, tid, siblings, amfd_data)`; the
set `siblings` is given as the list of its elements in iteration order. -/
def dump_backtrace (env : Env) (pid tid : Int) (siblings : List Int) (st : State) : State :=
  let st := dump_process_header env pid st
  let st := dump_thread env pid tid st
  let st := siblings.foldl (fun s sibling => dump_thread env pid sibling s) st
  dump_process_footer pid st

/-- The first-frame branch of `check_coredump_criteria` is the one taken: the
call logs its "checking" record and the "found in first frame" record, sets
`force_coredump_generation` and returns. -/
def fires_first_frame (log : CStr) (frame_num : Int) (st : State) : Prop :=
  check_coredump_criteria log frame_num st =
    { st with
      alog := st.alog ++ [.checking frame_num st.coredump_signal, .first_frame_met]
      force_coredump_generation := true }

/-- The signal branch of `check_coredump_criteria` is the one taken: the call
logs its "checking" record and the "found and signal=SIGABRT" record, sets
`force_coredump_generation` and returns. -/
def fires_signal (log : CStr) (frame_num : Int) (st : State) : Prop :=
  check_coredump_criteria log frame_num st =
    { st with
      alog := st.alog ++ [.checking frame_num st.coredump_signal, .sigabrt_met]
      force_coredump_generation := true }

instance (log : CStr) (frame_num : Int) (st : State) :
    Decidable (fires_first_frame log frame_num st) := by
  unfold fires_first_frame; infer_instance

instance (log : CStr) (frame_num : Int) (st : State) :
    Decidable (fires_signal log frame_num st) := by
  unfold fires_signal; infer_instance

/-- The frame text contains the marker `LIB_ART_NAME` once lower-cased. -/
def has_marker (t : CStr) : Prop := LIB_ART_NAME <:+: t.map tolower

instance (t : CStr) : Decidable (has_marker t) := by
  unfold has_marker; infer_instance

/-- Number of "checking" records in a stretch of the Android log, that is, of
calls of `check_coredump_criteria`. -/
def checks (l : List ALogLine) : Nat :=
  l.countP (fun e => match e with
    | .checking _ _ => true
    | _ => false)

/-- Number of "coredump-criteria met" records in a stretch of the Android log,
that is, of writes of `force_coredump_generation`. -/
def escalations (l : List ALogLine) : Nat :=
  l.countP (fun e => match e with
    | .first_frame_met => true
    | .sigabrt_met => true
    | _ => false)

/-- A state for examples: nothing logged yet. -/
def mkState (enabled victim force : Bool) (signal : Int) : State :=
  { coredump_enabled := enabled, victim_thread := victim,
    force_coredump_generation := force, coredump_signal := signal,
    log := [], alog := [] }

/-- A successfully unwound thread with the given frame texts. -/
def unwound (frames : List CStr) : Backtrace :=
  { unwind_ok := true, frames := frames, error := [] }

/-- Frames of a thread whose frame 0 is "libart.so+0x204". -/
def frames_libart_at_0 : List CStr := [lit "libart.so+0x204", lit "libc.so+0x10"]

/-- Frames of a thread whose only marked frame is frame 3, "libart.so+0x88". -/
def frames_libart_at_3 : List CStr :=
  [lit "libc.so+0x10", lit "libc.so+0x20", lit "libc.so+0x30", lit "libart.so+0x88"]

/-- Frames of a thread whose only marked frame is frame 8, "libart.so+0x88". -/
def frames_libart_at_8 : List CStr :=
  List.replicate 8 (lit "libc.so+0x10") ++ [lit "libart.so+0x88"]

/-- An environment with two threads: thread 100 unwinds to the single frame
"libc.so+0x10", thread 101 to `frames_libart_at_0`; no `/proc` record can be
opened. -/
def env_two_threads : Env :=
  { cmdline := fun _ => none,
    comm := fun _ => none,
    timestr := lit "2016-01-01 00:00:00",
    ABI_STRING := lit "arm",
    create := fun _ tid =>
      if tid = 101 then unwound frames_libart_at_0 else unwound [lit "libc.so+0x10"] }

/-- The libc `toupper` in the C locale: `a`..`z` go to `A`..`Z`, every other
value is returned unchanged. -/
def toupper (c : Nat) : Nat := if 97 ≤ c ∧ c ≤ 122 then c - 32 else c

/-- The text `threadname ? threadname : "<unknown>"` that `dump_thread` passes
to the banner, computed as in lines 80-90 of the source. -/
def thread_name (env : Env) (tid : Int) : CStr :=
  (match env.comm tid with
    | some content =>
      match fgets 1024 content with
      | some buf => some (strip_newline buf)
      | none => none
    | none => none).getD (lit "<unknown>")

/-- The banner line of a thread in the output format. -/
def thread_banner (name : CStr) (tid : Int) : CStr :=
  lit "\n\"" ++ name ++ lit "\" sysTid=" ++ fmt_d tid ++ lit "\n"

/-- The line of one frame in the output format, both texts being printed
with "%s". -/
def frame_line (pfx frame : CStr) : CStr := c_str pfx ++ c_str frame ++ lit "\n"

/-- The block of a thread in the log sink: its banner, then its frame lines
when the unwind succeeded. -/
def thread_block (env : Env) (pid tid : Int) : List CStr :=
  thread_banner (thread_name env tid) tid ::
    (if (env.create pid tid).unwind_ok then
      (env.create pid tid).frames.map (frame_line (lit "  "))
    else [])

/-- The footer line of a process in the output format. -/
def process_footer (pid : Int) : CStr := lit "\n----- end " ++ fmt_d pid ++ lit " -----\n"

/-- The first line of the header of a process in the output format. -/
def pid_line (env : Env) (pid : Int) : CStr :=
  lit "\n\n----- pid " ++ fmt_d pid ++ lit " at " ++ c_str env.timestr ++ lit " -----\n"

/-- The ABI line of the header of a process in the output format. -/
def abi_line (env : Env) : CStr := lit "ABI: '" ++ c_str env.ABI_STRING ++ lit "'\n"

/-- The header of a process as the source writes it: the command line is what
"%s" prints of the bytes `fgets` returned, that is, the record up to and
including its first newline, at most 1023 bytes, cut at the first NUL. -/
def process_header (env : Env) (pid : Int) : List CStr :=
  [pid_line env pid] ++
    (match env.cmdline pid with
      | none => []
      | some content =>
        if content = [] then []
        else [lit "Cmd line: " ++ c_str ((fgets_line content).take 1023) ++ lit "\n"]) ++
    [abi_line env]

/-- The first line of a text record read through a 1024-byte buffer, without
its line terminator, in the words of section 4.1 of the specification. -/
def spec_first_line (content : CStr) : CStr :=
  (content.takeWhile (fun c => c != 10)).take 1023

/-- The name of a thread in the words of the specification: the first line of
its comm record without the line terminator, or the sentinel when the record
is missing, unreadable or empty. -/
def spec_thread_name (env : Env) (tid : Int) : CStr :=
  match env.comm tid with
  | none => lit "<unknown>"
  | some content => if content = [] then lit "<unknown>" else spec_first_line content

/-- The header of a process in the words of the specification: the command
line is the first line of the record without its line terminator, and the
line is left out when the record is missing, unreadable or empty. -/
def spec_process_header (env : Env) (pid : Int) : List CStr :=
  [pid_line env pid] ++
    (match env.cmdline pid with
      | none => []
      | some content =>
        if content = [] then []
        else [lit "Cmd line: " ++ c_str (spec_first_line content) ++ lit "\n"]) ++
    [abi_line env]

/-- A chunk of the log sink that starts like a thread banner: a newline, then
a double quote. -/
def is_banner (chunk : CStr) : Bool := (lit "\n\"").isPrefixOf chunk

/-- The iteration order of a `std::set<pid_t>`: ascending. -/
def set_order (s : Finset Int) : List Int := s.sort (fun a b => a ≤ b)

/-- A thread whose unwind failed with the given error text. -/
def unwind_failure (error : CStr) : Backtrace :=
  { unwind_ok := false, frames := [], error := error }

/-- An environment in which thread 100, named "main", unwinds to
`frames_libart_at_3` and the unwind of thread 101, named "worker", fails;
the command line of every process is "app_process" followed by one
argument. -/
def env_sibling_fails : Env :=
  { cmdline := fun _ => some (lit "app_process" ++ [0] ++ lit "-Xzygote" ++ [0]),
    comm := fun tid => if tid = 100 then some (lit "main\n") else some (lit "worker\n"),
    timestr := lit "2016-01-01 00:00:00",
    ABI_STRING := lit "arm",
    create := fun _ tid =>
      if tid = 100 then unwound frames_libart_at_3
      else unwind_failure (lit "Thread doesn't exist") }

/-- An environment in which the command-line record of every process is the
line "foo" with its newline. -/
def env_cmdline_newline : Env :=
  { env_two_threads with cmdline := fun _ => some (lit "foo\n") }

/-- An environment in which every thread unwinds to four frames without the
marker. -/
def env_plain_threads : Env :=
  { env_two_threads with
    create := fun _ _ => unwound (List.replicate 4 (lit "libc.so+0x10")) }

/-- The environment `env` in which the unwind of thread `sib` succeeds with the
given frames, everything else being as in `env`. -/
def with_unwound (env : Env) (sib : Int) (frames : List CStr) : Env :=
  { env with create := fun p t => if t = sib then unwound frames else env.create p t }

/-! ## Auxiliary lemmas -/

theorem find_from_ne_none_iff (pat : CStr) (s : CStr) (pos : Nat) :
    find_from pat pos s ≠ none ↔ pat <:+: s := by
  induction s generalizing pos with
  | nil =>
    simp [find_from, List.isPrefixOf_iff_prefix]
  | cons c cs ih =>
    rw [find_from, List.infix_cons_iff]
    by_cases hp : pat.isPrefixOf (c :: cs) = true
    · simp [hp, List.isPrefixOf_iff_prefix.mp hp]
    · have hp2 : ¬ pat <+: c :: cs := fun h => hp (List.isPrefixOf_iff_prefix.mpr h)
      simp only [hp, if_false, Bool.false_eq_true, hp2, false_or]
      exact ih (pos + 1)

theorem find_ne_none_iff (t : CStr) :
    find (t.map tolower) LIB_ART_NAME ≠ none ↔ has_marker t :=
  find_from_ne_none_iff LIB_ART_NAME (t.map tolower) 0

/-- The three outcomes of `check_coredump_criteria`, by the marker test. -/
theorem check_eq (t : CStr) (n : Int) (st : State) :
    check_coredump_criteria t n st =
      if has_marker t ∧ n = 0 then
        { st with
          alog := st.alog ++ [.checking n st.coredump_signal, .first_frame_met]
          force_coredump_generation := true }
      else if has_marker t ∧ st.coredump_signal = SIGABRT then
        { st with
          alog := st.alog ++ [.checking n st.coredump_signal, .sigabrt_met]
          force_coredump_generation := true }
      else { st with alog := st.alog ++ [.checking n st.coredump_signal] } := by
  by_cases hm : has_marker t
  · have hf : find (t.map tolower) LIB_ART_NAME ≠ none := (find_ne_none_iff t).mpr hm
    by_cases hn : n = 0
    · simp [check_coredump_criteria, ALOG, hm, hf, hn]
    · by_cases hs : st.coredump_signal = SIGABRT
      · simp [check_coredump_criteria, ALOG, hm, hf, hn, hs]
      · simp [check_coredump_criteria, ALOG, hm, hf, hn, hs]
  · have hf : ¬ find (t.map tolower) LIB_ART_NAME ≠ none :=
      fun h => hm ((find_ne_none_iff t).mp h)
    simp [check_coredump_criteria, ALOG, hm, hf]

/-- Whether one call of `check_coredump_criteria` on frame `n` with text `t`
under signal `s` meets a criterion. -/
theorem check_force (t : CStr) (n : Int) (st : State) :
    (check_coredump_criteria t n st).force_coredump_generation =
      (st.force_coredump_generation ||
        decide (has_marker t ∧ (n = 0 ∨ st.coredump_signal = SIGABRT))) := by
  rw [check_eq]
  by_cases hm : has_marker t <;> by_cases hn : n = 0 <;>
    by_cases hs : st.coredump_signal = SIGABRT <;> simp [hm, hn, hs]

theorem check_enabled (t : CStr) (n : Int) (st : State) :
    (check_coredump_criteria t n st).coredump_enabled = st.coredump_enabled := by
  rw [check_eq]; split_ifs <;> rfl

theorem check_victim (t : CStr) (n : Int) (st : State) :
    (check_coredump_criteria t n st).victim_thread = st.victim_thread := by
  rw [check_eq]; split_ifs <;> rfl

theorem check_signal (t : CStr) (n : Int) (st : State) :
    (check_coredump_criteria t n st).coredump_signal = st.coredump_signal := by
  rw [check_eq]; split_ifs <;> rfl

theorem check_log (t : CStr) (n : Int) (st : State) :
    (check_coredump_criteria t n st).log = st.log := by
  rw [check_eq]; split_ifs <;> rfl

theorem fires_first_frame_iff (t : CStr) (n : Int) (st : State) :
    fires_first_frame t n st ↔ n = 0 ∧ has_marker t := by
  unfold fires_first_frame
  rw [check_eq]
  by_cases hm : has_marker t <;> by_cases hn : n = 0 <;>
    by_cases hs : st.coredump_signal = SIGABRT <;> simp [hm, hn, hs]

theorem fires_signal_iff (t : CStr) (n : Int) (st : State) :
    fires_signal t n st ↔ has_marker t ∧ st.coredump_signal = SIGABRT ∧ n ≠ 0 := by
  unfold fires_signal
  rw [check_eq]
  by_cases hm : has_marker t <;> by_cases hn : n = 0 <;>
    by_cases hs : st.coredump_signal = SIGABRT <;> simp [hm, hn, hs]

theorem dump_frame_enabled (pfx : CStr) (i : Nat) (f : CStr) (st : State) :
    (dump_frame pfx i f st).coredump_enabled = st.coredump_enabled := by
  unfold dump_frame _LOG
  split_ifs <;> simp [check_enabled]

theorem dump_frame_victim (pfx : CStr) (i : Nat) (f : CStr) (st : State) :
    (dump_frame pfx i f st).victim_thread = st.victim_thread := by
  unfold dump_frame _LOG
  split_ifs <;> simp [check_victim]

theorem dump_frame_signal (pfx : CStr) (i : Nat) (f : CStr) (st : State) :
    (dump_frame pfx i f st).coredump_signal = st.coredump_signal := by
  unfold dump_frame _LOG
  split_ifs <;> simp [check_signal]

/-- The flag after one loop iteration. -/
theorem dump_frame_force (pfx : CStr) (i : Nat) (f : CStr) (st : State) :
    (dump_frame pfx i f st).force_coredump_generation =
      (st.force_coredump_generation ||
        (st.coredump_enabled && st.victim_thread &&
          decide (i < MAX_FRAMES_FROM_TOP_TO_CHECK) &&
          decide (has_marker f ∧ (i = 0 ∨ st.coredump_signal = SIGABRT)))) := by
  unfold dump_frame _LOG
  split_ifs with hg
  · simp only [Bool.and_eq_true, Bool.not_eq_true', decide_eq_true_eq] at hg
    obtain ⟨⟨⟨he, hv⟩, hf⟩, hi⟩ := hg
    simp [check_force, he, hv, hf, hi]
  · cases hf : st.force_coredump_generation
    · cases he : st.coredump_enabled <;> cases hv : st.victim_thread <;>
        simp [he, hv, hf] at hg ⊢
      intro hi
      exact absurd hi (by omega)
    · simp

/-- The Android-log records of one loop iteration: none, or one "checking"
record for an index below the bound, possibly followed by one "met" record
that comes with the flag set. -/
theorem dump_frame_alog (pfx : CStr) (i : Nat) (f : CStr) (st : State) :
    ((dump_frame pfx i f st).alog = st.alog ∧
      (dump_frame pfx i f st).force_coredump_generation = st.force_coredump_generation) ∨
    (i < MAX_FRAMES_FROM_TOP_TO_CHECK ∧ st.force_coredump_generation = false ∧
      (dump_frame pfx i f st).alog = st.alog ++ [.checking i st.coredump_signal] ∧
      (dump_frame pfx i f st).force_coredump_generation = false) ∨
    (i < MAX_FRAMES_FROM_TOP_TO_CHECK ∧ st.force_coredump_generation = false ∧
      (dump_frame pfx i f st).force_coredump_generation = true ∧
      ((dump_frame pfx i f st).alog =
          st.alog ++ [.checking i st.coredump_signal, .first_frame_met] ∨
        (dump_frame pfx i f st).alog =
          st.alog ++ [.checking i st.coredump_signal, .sigabrt_met])) := by
  unfold dump_frame _LOG
  split_ifs with hg
  · simp only [Bool.and_eq_true, Bool.not_eq_true', decide_eq_true_eq] at hg
    obtain ⟨⟨⟨_, _⟩, hf⟩, hi⟩ := hg
    right
    rw [check_eq]
    split_ifs
    · right; exact ⟨hi, hf, rfl, Or.inl rfl⟩
    · right; exact ⟨hi, hf, rfl, Or.inr rfl⟩
    · left; exact ⟨hi, hf, rfl, hf⟩
  · left; exact ⟨rfl, rfl⟩

/-- With the gate closed (escalation disabled, not the victim thread, or the
flag already set) the loop only writes the frame lines. -/
theorem dump_frames_gate_closed (pfx : CStr) (fs : List CStr) (i : Nat) (st : State)
    (h : (st.coredump_enabled && st.victim_thread && !st.force_coredump_generation) = false) :
    dump_frames pfx i fs st =
      { st with log := st.log ++ fs.map (fun f => c_str pfx ++ c_str f ++ lit "\n") } := by
  induction fs generalizing i st with
  | nil => simp [dump_frames]
  | cons f rest ih =>
    have hstep : dump_frame pfx i f st = _LOG st (c_str pfx ++ c_str f ++ lit "\n") := by
      unfold dump_frame
      simp [h]
    rw [dump_frames, hstep, ih (i + 1) _ (by simpa [_LOG] using h)]
    simp [_LOG]

theorem dump_frames_enabled (pfx : CStr) (fs : List CStr) (i : Nat) (st : State) :
    (dump_frames pfx i fs st).coredump_enabled = st.coredump_enabled := by
  induction fs generalizing i st with
  | nil => rfl
  | cons f rest ih => rw [dump_frames, ih, dump_frame_enabled]

theorem dump_frames_victim (pfx : CStr) (fs : List CStr) (i : Nat) (st : State) :
    (dump_frames pfx i fs st).victim_thread = st.victim_thread := by
  induction fs generalizing i st with
  | nil => rfl
  | cons f rest ih => rw [dump_frames, ih, dump_frame_victim]

theorem dump_frames_signal (pfx : CStr) (fs : List CStr) (i : Nat) (st : State) :
    (dump_frames pfx i fs st).coredump_signal = st.coredump_signal := by
  induction fs generalizing i st with
  | nil => rfl
  | cons f rest ih => rw [dump_frames, ih, dump_frame_signal]

/-- Closed form of the flag after the loop started at index `i`. -/
theorem dump_frames_force (pfx : CStr) (fs : List CStr) (i : Nat) (st : State) :
    (dump_frames pfx i fs st).force_coredump_generation = true ↔
      st.force_coredump_generation = true ∨
      (st.coredump_enabled = true ∧ st.victim_thread = true ∧
        ∃ j t, i + j < MAX_FRAMES_FROM_TOP_TO_CHECK ∧ fs[j]? = some t ∧ has_marker t ∧
          (i + j = 0 ∨ st.coredump_signal = SIGABRT)) := by
  induction fs generalizing i st with
  | nil => simp [dump_frames]
  | cons f rest ih =>
    rw [dump_frames, ih, dump_frame_force, dump_frame_enabled, dump_frame_victim,
      dump_frame_signal]
    simp only [Bool.or_eq_true, Bool.and_eq_true, decide_eq_true_eq]
    constructor
    · rintro ((hf | ⟨⟨⟨he, hv⟩, hi⟩, hm, hz⟩) | ⟨he, hv, j, t, hj, ht, hm, hz⟩)
      · exact Or.inl hf
      · exact Or.inr ⟨he, hv, 0, f, by simpa using hi, by simp, hm, by simpa using hz⟩
      · refine Or.inr ⟨he, hv, j + 1, t, by omega, by simpa using ht, hm, ?_⟩
        rcases hz with hz | hz
        · omega
        · exact Or.inr hz
    · rintro (hf | ⟨he, hv, j, t, hj, ht, hm, hz⟩)
      · exact Or.inl (Or.inl hf)
      · cases j with
        | zero =>
          simp only [List.getElem?_cons_zero, Option.some.injEq] at ht
          subst ht
          exact Or.inl (Or.inr ⟨⟨⟨he, hv⟩, by simpa using hj⟩, hm, by simpa using hz⟩)
        | succ k =>
          simp only [List.getElem?_cons_succ] at ht
          refine Or.inr ⟨he, hv, k, t, by omega, ht, hm, ?_⟩
          rcases hz with hz | hz
          · omega
          · exact Or.inr hz

/-- The Android-log records of the whole loop: every "checking" record carries
an index below the bound, and at most one "met" record is written. -/
theorem dump_frames_alog (pfx : CStr) (fs : List CStr) (i : Nat) (st : State) :
    ∃ new, (dump_frames pfx i fs st).alog = st.alog ++ new ∧
      (∀ n s, ALogLine.checking n s ∈ new →
        0 ≤ n ∧ n < (MAX_FRAMES_FROM_TOP_TO_CHECK : Int)) ∧
      escalations new ≤ 1 := by
  induction fs generalizing i st with
  | nil => exact ⟨[], by simp [dump_frames], by simp, by simp [escalations]⟩
  | cons f rest ih =>
    rw [dump_frames]
    obtain ⟨new2, h2, hc2, he2⟩ := ih (i + 1) (dump_frame pfx i f st)
    rcases dump_frame_alog pfx i f st with ⟨ha, _⟩ | ⟨hi, _, ha, _⟩ | ⟨hi, _, hforce, ha⟩
    · exact ⟨new2, by rw [h2, ha], hc2, he2⟩
    · refine ⟨ALogLine.checking i st.coredump_signal :: new2, by rw [h2, ha]; simp, ?_, ?_⟩
      · intro n s hmem
        rcases List.mem_cons.mp hmem with heq | hmem
        · injection heq with hn _
          subst hn
          exact ⟨Int.natCast_nonneg i, by exact_mod_cast hi⟩
        · exact hc2 n s hmem
      · simpa [escalations] using he2
    · have hclosed := dump_frames_gate_closed pfx rest (i + 1) (dump_frame pfx i f st)
        (by simp [hforce])
      rcases ha with ha | ha
      · refine ⟨[ALogLine.checking i st.coredump_signal, ALogLine.first_frame_met],
          by rw [hclosed]; exact ha, ?_, by simp [escalations]⟩
        intro n s hmem
        simp only [List.mem_cons, ALogLine.checking.injEq, List.mem_singleton,
          reduceCtorEq, List.not_mem_nil, or_false] at hmem
        obtain ⟨hn, _⟩ := hmem
        subst hn
        exact ⟨Int.natCast_nonneg i, by exact_mod_cast hi⟩
      · refine ⟨[ALogLine.checking i st.coredump_signal, ALogLine.sigabrt_met],
          by rw [hclosed]; exact ha, ?_, by simp [escalations]⟩
        intro n s hmem
        simp only [List.mem_cons, ALogLine.checking.injEq, List.mem_singleton,
          reduceCtorEq, List.not_mem_nil, or_false] at hmem
        obtain ⟨hn, _⟩ := hmem
        subst hn
        exact ⟨Int.natCast_nonneg i, by exact_mod_cast hi⟩

/-- The header only writes to the log sink. -/
theorem dump_process_header_eq (env : Env) (pid : Int) (st : State) :
    ∃ chunks, dump_process_header env pid st = { st with log := st.log ++ chunks } := by
  unfold dump_process_header
  cases hp : (match env.cmdline pid with
    | some content => fgets 1024 content
    | none => none) with
  | none => exact ⟨_, by simp only [_LOG, List.append_assoc]; rfl⟩
  | some p => exact ⟨_, by simp only [_LOG, List.append_assoc]; rfl⟩

/-- The two paths of `dump_thread` after the banner. -/
theorem dump_thread_eq (env : Env) (pid tid : Int) (st : State) :
    ∃ banner, dump_thread env pid tid st =
      if (env.create pid tid).unwind_ok then
        dump_backtrace_to_log (env.create pid tid) (lit "  ") (_LOG st banner)
      else
        ALOG (_LOG st banner) (.unwind_failed tid (env.create pid tid).error) :=
  ⟨_, rfl⟩

theorem dump_thread_victim (env : Env) (pid tid : Int) (st : State) :
    (dump_thread env pid tid st).victim_thread = st.victim_thread := by
  obtain ⟨banner, h⟩ := dump_thread_eq env pid tid st
  rw [h]
  split_ifs
  · unfold dump_backtrace_to_log
    rw [dump_frames_victim]; rfl
  · rfl

/-- The flag never goes back to false in `dump_thread`. -/
theorem dump_thread_force_of_force (env : Env) (pid tid : Int) (st : State)
    (hf : st.force_coredump_generation = true) :
    (dump_thread env pid tid st).force_coredump_generation = true := by
  obtain ⟨banner, h⟩ := dump_thread_eq env pid tid st
  rw [h]
  split_ifs
  · exact (dump_frames_force _ _ 0 _).mpr (Or.inl hf)
  · exact hf

/-- With `victim_thread` false, `dump_thread` keeps the flag and adds no
"checking" record to the Android log. -/
theorem dump_thread_non_victim (env : Env) (pid tid : Int) (st : State)
    (hv : st.victim_thread = false) :
    (dump_thread env pid tid st).force_coredump_generation = st.force_coredump_generation ∧
    ∃ new, (dump_thread env pid tid st).alog = st.alog ++ new ∧ checks new = 0 := by
  obtain ⟨banner, h⟩ := dump_thread_eq env pid tid st
  rw [h]
  split_ifs
  · unfold dump_backtrace_to_log
    rw [dump_frames_gate_closed _ _ 0 _ (by simp [_LOG, hv])]
    exact ⟨rfl, [], by simp [_LOG], rfl⟩
  · exact ⟨rfl, [.unwind_failed tid (env.create pid tid).error], rfl, rfl⟩

theorem foldl_dump_thread_victim (env : Env) (pid : Int) (tids : List Int) (st : State) :
    (tids.foldl (fun s sibling => dump_thread env pid sibling s) st).victim_thread =
      st.victim_thread := by
  induction tids generalizing st with
  | nil => rfl
  | cons t rest ih => rw [List.foldl_cons, ih, dump_thread_victim]

theorem foldl_dump_thread_force_of_force (env : Env) (pid : Int) (tids : List Int)
    (st : State) (hf : st.force_coredump_generation = true) :
    (tids.foldl (fun s sibling => dump_thread env pid sibling s) st).force_coredump_generation
      = true := by
  induction tids generalizing st with
  | nil => exact hf
  | cons t rest ih =>
    rw [List.foldl_cons]
    exact ih _ (dump_thread_force_of_force env pid t st hf)

theorem foldl_dump_thread_non_victim (env : Env) (pid : Int) (tids : List Int) (st : State)
    (hv : st.victim_thread = false) :
    (tids.foldl (fun s sibling => dump_thread env pid sibling s) st).force_coredump_generation
      = st.force_coredump_generation ∧
    ∃ new, (tids.foldl (fun s sibling => dump_thread env pid sibling s) st).alog =
      st.alog ++ new ∧ checks new = 0 := by
  induction tids generalizing st with
  | nil => exact ⟨rfl, [], by simp, rfl⟩
  | cons t rest ih =>
    rw [List.foldl_cons]
    obtain ⟨hf1, new1, ha1, hc1⟩ := dump_thread_non_victim env pid t st hv
    obtain ⟨hf2, new2, ha2, hc2⟩ := ih (dump_thread env pid t st)
      (by rw [dump_thread_victim]; exact hv)
    refine ⟨hf2.trans hf1, new1 ++ new2, by rw [ha2, ha1, List.append_assoc], ?_⟩
    simp only [checks, List.countP_append] at hc1 hc2 ⊢
    omega

/-! ### What is written to the log sink -/

theorem dump_frame_log (pfx : CStr) (i : Nat) (f : CStr) (st : State) :
    (dump_frame pfx i f st).log = st.log ++ [frame_line pfx f] := by
  unfold dump_frame _LOG frame_line
  split_ifs <;> simp [check_log]

theorem dump_frames_log (pfx : CStr) (fs : List CStr) (i : Nat) (st : State) :
    (dump_frames pfx i fs st).log = st.log ++ fs.map (frame_line pfx) := by
  induction fs generalizing i st with
  | nil => simp [dump_frames]
  | cons f rest ih => rw [dump_frames, ih, dump_frame_log]; simp

theorem dump_thread_banner (env : Env) (pid tid : Int) (st : State) :
    dump_thread env pid tid st =
      if (env.create pid tid).unwind_ok then
        dump_backtrace_to_log (env.create pid tid) (lit "  ")
          (_LOG st (thread_banner (thread_name env tid) tid))
      else
        ALOG (_LOG st (thread_banner (thread_name env tid) tid))
          (.unwind_failed tid (env.create pid tid).error) :=
  rfl

theorem dump_thread_log (env : Env) (pid tid : Int) (st : State) :
    (dump_thread env pid tid st).log = st.log ++ thread_block env pid tid := by
  rw [dump_thread_banner, thread_block]
  split_ifs
  · unfold dump_backtrace_to_log
    rw [dump_frames_log]
    simp [_LOG]
  · simp [_LOG, ALOG]

theorem foldl_dump_thread_log (env : Env) (pid : Int) (tids : List Int) (st : State) :
    (tids.foldl (fun s sibling => dump_thread env pid sibling s) st).log =
      st.log ++ tids.flatMap (thread_block env pid) := by
  induction tids generalizing st with
  | nil => simp
  | cons t rest ih => rw [List.foldl_cons, ih, dump_thread_log]; simp

theorem dump_process_header_log (env : Env) (pid : Int) (st : State) :
    (dump_process_header env pid st).log = st.log ++ process_header env pid := by
  unfold dump_process_header process_header
  cases hc : env.cmdline pid with
  | none => simp [_LOG, pid_line, abi_line]
  | some content =>
    by_cases he : content = []
    · simp [_LOG, pid_line, abi_line, fgets, he]
    · simp [_LOG, pid_line, abi_line, fgets, he]

theorem dump_backtrace_log (env : Env) (pid tid : Int) (siblings : List Int) (st : State) :
    (dump_backtrace env pid tid siblings st).log =
      st.log ++ (process_header env pid ++ thread_block env pid tid ++
        siblings.flatMap (thread_block env pid) ++ [process_footer pid]) := by
  unfold dump_backtrace dump_process_footer _LOG
  show State.log (List.foldl _ _ siblings) ++ _ = _
  rw [foldl_dump_thread_log, dump_thread_log, dump_process_header_log]
  simp [process_footer]

theorem c_str_of_no_nul (l : CStr) (h : 0 ∉ l) : c_str l = l := by
  unfold c_str
  rw [List.takeWhile_eq_self_iff]
  intro x hx
  have : x ≠ 0 := fun h0 => h (h0 ▸ hx)
  simpa using this

theorem is_banner_thread_banner (name : CStr) (tid : Int) :
    is_banner (thread_banner name tid) = true := by
  have h : lit "\n\"" = [10, 34] := by decide
  simp [is_banner, thread_banner, h, List.isPrefixOf]

theorem is_banner_frame_line (f : CStr) : is_banner (frame_line (lit "  ") f) = false := by
  have h : lit "\n\"" = [10, 34] := by decide
  have h2 : c_str (lit "  ") = [32, 32] := by decide
  simp [is_banner, frame_line, h, h2, List.isPrefixOf]

theorem countP_is_banner_thread_block (env : Env) (pid tid : Int) :
    (thread_block env pid tid).countP is_banner = 1 := by
  unfold thread_block
  rw [List.countP_cons_of_pos _ _ (is_banner_thread_banner _ _)]
  split_ifs
  · simp only [add_left_eq_self, List.countP_eq_zero, List.mem_map, forall_exists_index,
      and_imp, forall_apply_eq_imp_iff₂, is_banner_frame_line]
    simp
  · simp

theorem countP_is_banner_process_header (env : Env) (pid : Int) :
    (process_header env pid).countP is_banner = 0 := by
  have h : lit "\n\"" = [10, 34] := by decide
  have h1 : lit "\n\n----- pid " = 10 :: 10 :: lit "----- pid " := by decide
  have h2 : lit "Cmd line: " = 67 :: lit "md line: " := by decide
  have h3 : lit "ABI: '" = 65 :: lit "BI: '" := by decide
  unfold process_header
  cases env.cmdline pid with
  | none => simp [is_banner, pid_line, abi_line, h, h1, h3, List.isPrefixOf]
  | some content =>
    by_cases he : content = []
    · simp [is_banner, pid_line, abi_line, h, h1, h3, he, List.isPrefixOf]
    · simp [is_banner, pid_line, abi_line, h, h1, h2, h3, he, List.isPrefixOf]

theorem is_banner_process_footer (pid : Int) : is_banner (process_footer pid) = false := by
  have h : lit "\n\"" = [10, 34] := by decide
  have h1 : lit "\n----- end " = 10 :: 45 :: lit "---- end " := by decide
  simp [is_banner, process_footer, h, h1, List.isPrefixOf]

theorem countP_is_banner_blocks (env : Env) (pid : Int) (tids : List Int) :
    (tids.flatMap (thread_block env pid)).countP is_banner = tids.length := by
  induction tids with
  | nil => simp
  | cons t rest ih =>
    rw [List.flatMap_cons, List.countP_append, ih, countP_is_banner_thread_block]
    simp [Nat.add_comm]

/-! ### Reading the first line of a record -/

theorem fgets_line_cases (content : CStr) :
    fgets_line content = content.takeWhile (fun c => c != 10) ∨
    fgets_line content = content.takeWhile (fun c => c != 10) ++ [10] := by
  induction content with
  | nil => left; rfl
  | cons c cs ih =>
    by_cases hc : c = 10
    · right; simp [fgets_line, hc]
    · rcases ih with h | h
      · left; simp [fgets_line, hc, h]
      · right; simp [fgets_line, hc, h]

theorem fgets_line_of_no_newline (content : CStr) (h : 10 ∉ content) :
    fgets_line content = content ∧ content.takeWhile (fun c => c != 10) = content := by
  induction content with
  | nil => exact ⟨rfl, rfl⟩
  | cons c cs ih =>
    have hc : c ≠ 10 := fun hc => h (hc ▸ List.mem_cons_self _ _)
    have hcs : 10 ∉ cs := fun hm => h (List.mem_cons_of_mem _ hm)
    obtain ⟨h1, h2⟩ := ih hcs
    simp [fgets_line, hc, h1, h2]

theorem newline_not_mem_takeWhile (content : CStr) :
    10 ∉ content.takeWhile (fun c => c != 10) := by
  intro h
  have := List.mem_takeWhile_imp h
  simp at this

theorem strip_newline_of_no_newline (buf : CStr) (h : 10 ∉ buf) :
    strip_newline buf = c_str buf := by
  unfold strip_newline
  have hlast : ¬ (c_str buf).getLast? = some 10 := by
    intro hl
    exact h ((List.takeWhile_sublist _).subset (List.mem_of_getLast?_eq_some hl))
  simp [hlast]

theorem c_str_append_of_nul (l r : CStr) (h : 0 ∈ l) : c_str (l ++ r) = c_str l := by
  induction l with
  | nil => cases h
  | cons c cs ih =>
    by_cases hc : c = 0
    · simp [c_str, hc]
    · have hcs : 0 ∈ cs := by
        rcases List.mem_cons.mp h with h0 | h0
        · exact absurd h0.symm hc
        · exact h0
      have := ih hcs
      unfold c_str at this ⊢
      simp [List.takeWhile_cons, hc, this]

theorem strip_newline_append_newline (l : CStr) (h : 10 ∉ l) :
    strip_newline (l ++ [10]) = c_str l := by
  by_cases h0 : 0 ∈ l
  · unfold strip_newline
    rw [c_str_append_of_nul l [10] h0]
    have hlast : ¬ (c_str l).getLast? = some 10 := by
      intro hl
      exact h ((List.takeWhile_sublist _).subset (List.mem_of_getLast?_eq_some hl))
    simp [hlast]
  · have hno : 0 ∉ l ++ [10] := by simp [h0]
    unfold strip_newline
    rw [c_str_of_no_nul _ hno, c_str_of_no_nul _ h0]
    simp

/-- The name left in the buffer of `dump_thread` is what "%s" prints of the
first line of the record. -/
theorem strip_newline_fgets (content : CStr) :
    strip_newline ((fgets_line content).take 1023) = c_str (spec_first_line content) := by
  unfold spec_first_line
  have hno := newline_not_mem_takeWhile content
  have hno_take : 10 ∉ (content.takeWhile (fun c => c != 10)).take 1023 :=
    fun hm => hno (List.mem_of_mem_take hm)
  rcases fgets_line_cases content with h | h
  · rw [h]
    exact strip_newline_of_no_newline _ hno_take
  · rw [h]
    by_cases hlen : 1023 ≤ (content.takeWhile (fun c => c != 10)).length
    · rw [List.take_append_of_le_length hlen]
      exact strip_newline_of_no_newline _ hno_take
    · rw [List.take_of_length_le (by simp; omega), List.take_of_length_le (by omega)]
      exact strip_newline_append_newline _ hno

theorem thread_name_eq (env : Env) (tid : Int) :
    thread_name env tid = c_str (spec_thread_name env tid) := by
  have hs : c_str (lit "<unknown>") = lit "<unknown>" := by decide
  unfold thread_name spec_thread_name
  cases env.comm tid with
  | none => simp [hs]
  | some content =>
    by_cases he : content = []
    · simp [fgets, he, hs]
    · simp [fgets, he, strip_newline_fgets]

/-! ### How often `check_coredump_criteria` is called -/

theorem dump_frames_checks (pfx : CStr) (fs : List CStr) (i : Nat) (st : State) :
    ∃ new, (dump_frames pfx i fs st).alog = st.alog ++ new ∧
      checks new ≤ MAX_FRAMES_FROM_TOP_TO_CHECK - i := by
  induction fs generalizing i st with
  | nil => exact ⟨[], by simp [dump_frames], by simp [checks]⟩
  | cons f rest ih =>
    rw [dump_frames]
    obtain ⟨new2, h2, hc2⟩ := ih (i + 1) (dump_frame pfx i f st)
    rcases dump_frame_alog pfx i f st with ⟨ha, _⟩ | ⟨hi, _, ha, _⟩ | ⟨hi, _, hforce, ha⟩
    · exact ⟨new2, by rw [h2, ha], by omega⟩
    · refine ⟨ALogLine.checking i st.coredump_signal :: new2, by rw [h2, ha]; simp, ?_⟩
      have : checks (ALogLine.checking i st.coredump_signal :: new2) = checks new2 + 1 := by
        simp [checks]
      omega
    · have hclosed := dump_frames_gate_closed pfx rest (i + 1) (dump_frame pfx i f st)
        (by simp [hforce])
      rcases ha with ha | ha
      · refine ⟨[ALogLine.checking i st.coredump_signal, ALogLine.first_frame_met],
          by rw [hclosed]; exact ha, ?_⟩
        have : checks [ALogLine.checking i st.coredump_signal, ALogLine.first_frame_met] = 1 := by
          simp [checks]
        omega
      · refine ⟨[ALogLine.checking i st.coredump_signal, ALogLine.sigabrt_met],
          by rw [hclosed]; exact ha, ?_⟩
        have : checks [ALogLine.checking i st.coredump_signal, ALogLine.sigabrt_met] = 1 := by
          simp [checks]
        omega

theorem dump_thread_checks (env : Env) (pid tid : Int) (st : State) :
    ∃ new, (dump_thread env pid tid st).alog = st.alog ++ new ∧
      checks new ≤ MAX_FRAMES_FROM_TOP_TO_CHECK := by
  rw [dump_thread_banner]
  split_ifs
  · obtain ⟨new, h, hc⟩ := dump_frames_checks (lit "  ") (env.create pid tid).frames 0
      (_LOG st (thread_banner (thread_name env tid) tid))
    exact ⟨new, h, by omega⟩
  · exact ⟨[.unwind_failed tid (env.create pid tid).error], rfl, by simp [checks]⟩

theorem foldl_dump_thread_checks (env : Env) (pid : Int) (tids : List Int) (st : State) :
    ∃ new, (tids.foldl (fun s sibling => dump_thread env pid sibling s) st).alog =
        st.alog ++ new ∧
      checks new ≤ MAX_FRAMES_FROM_TOP_TO_CHECK * tids.length := by
  induction tids generalizing st with
  | nil => exact ⟨[], by simp, by simp [checks]⟩
  | cons t rest ih =>
    rw [List.foldl_cons]
    obtain ⟨new1, ha1, hc1⟩ := dump_thread_checks env pid t st
    obtain ⟨new2, ha2, hc2⟩ := ih (dump_thread env pid t st)
    refine ⟨new1 ++ new2, by rw [ha2, ha1, List.append_assoc], ?_⟩
    simp only [checks, List.countP_append, List.length_cons] at hc1 hc2 ⊢
    rw [Nat.mul_succ]
    omega

/-! ## The two rules of `check_coredump_criteria` -/

/-- C1: with `force_coredump_generation` false on entry, the first-frame rule of
`check_coredump_criteria` fires exactly when the frame index is 0 and the
lower-cased text contains "libart"; replacing the ambient signal by any other
value does not change whether it fires. -/
theorem first_frame_rule_fires_iff (t : CStr) (n : Int) (st : State)
    (_hentry : st.force_coredump_generation = false) :
    (fires_first_frame t n st ↔ n = 0 ∧ LIB_ART_NAME <:+: t.map tolower) ∧
    ∀ s : Int, fires_first_frame t n { st with coredump_signal := s } ↔
      fires_first_frame t n st := by
  refine ⟨fires_first_frame_iff t n st, fun s => ?_⟩
  rw [fires_first_frame_iff, fires_first_frame_iff]

/-- Witness for C1: frame 0 with text "libart.so+0x204" under `SIGSEGV`. -/
theorem first_frame_rule_fires_iff_witness :
    (mkState true true false SIGSEGV).force_coredump_generation = false ∧
    fires_first_frame (lit "libart.so+0x204") 0 (mkState true true false SIGSEGV) :=
  ⟨rfl, (first_frame_rule_fires_iff (lit "libart.so+0x204") 0
    (mkState true true false SIGSEGV) rfl).1.mpr ⟨rfl, by decide⟩⟩

/-- C2: the signal rule of `check_coredump_criteria` fires exactly when the
lower-cased text contains "libart", `coredump_signal` is `SIGABRT` and the
first-frame rule did not fire in that call; when the first-frame rule fires the
signal rule does not. -/
theorem signal_rule_fires_iff (t : CStr) (n : Int) (st : State) :
    (fires_signal t n st ↔
      LIB_ART_NAME <:+: t.map tolower ∧ st.coredump_signal = SIGABRT ∧
        ¬ fires_first_frame t n st) ∧
    (fires_first_frame t n st → ¬ fires_signal t n st) := by
  rw [fires_signal_iff, fires_first_frame_iff]
  change (has_marker t ∧ _ ∧ _ ↔ has_marker t ∧ _ ∧ ¬ (_ ∧ has_marker t)) ∧ _
  constructor
  · constructor
    · rintro ⟨hm, hs, hn⟩
      exact ⟨hm, hs, fun h => hn h.1⟩
    · rintro ⟨hm, hs, hn⟩
      exact ⟨hm, hs, fun h => hn ⟨h, hm⟩⟩
  · rintro ⟨h0, _⟩ ⟨_, _, hn⟩
    exact hn h0

/-! ## The gate of `dump_backtrace_to_log` -/

/-- C3: `dump_backtrace_to_log` never offers a frame with index 7 or more to
`check_coredump_criteria` (every "checking" record it adds carries an index
below `MAX_FRAMES_FROM_TOP_TO_CHECK`); so if no frame at an index below 7
contains "libart" after lower-casing, the flag after the call is the flag
before it, whatever the later frames, the signal and the other globals are. -/
theorem frames_beyond_bound_not_offered (backtrace : Backtrace) (pfx : CStr) (st : State) :
    (∃ new, (dump_backtrace_to_log backtrace pfx st).alog = st.alog ++ new ∧
      ∀ n s, ALogLine.checking n s ∈ new →
        0 ≤ n ∧ n < (MAX_FRAMES_FROM_TOP_TO_CHECK : Int)) ∧
    ((∀ i t, i < MAX_FRAMES_FROM_TOP_TO_CHECK → backtrace.frames[i]? = some t →
        ¬ LIB_ART_NAME <:+: t.map tolower) →
      (dump_backtrace_to_log backtrace pfx st).force_coredump_generation =
        st.force_coredump_generation) := by
  constructor
  · obtain ⟨new, h, hc, _⟩ := dump_frames_alog pfx backtrace.frames 0 st
    exact ⟨new, h, hc⟩
  · intro hno
    have hiff := dump_frames_force pfx backtrace.frames 0 st
    have hnone : ¬ (st.coredump_enabled = true ∧ st.victim_thread = true ∧
        ∃ j t, 0 + j < MAX_FRAMES_FROM_TOP_TO_CHECK ∧ backtrace.frames[j]? = some t ∧
          has_marker t ∧ (0 + j = 0 ∨ st.coredump_signal = SIGABRT)) := by
      rintro ⟨_, _, j, t, hj, ht, hm, _⟩
      exact hno j t (by omega) ht hm
    unfold dump_backtrace_to_log
    cases hb : st.force_coredump_generation
    · cases ha : (dump_frames pfx 0 backtrace.frames st).force_coredump_generation
      · rfl
      · rcases hiff.mp ha with h | h
        · rw [hb] at h; cases h
        · exact absurd h hnone
    · exact hiff.mpr (Or.inl hb)

/-- Witness for C3: the victim thread under `SIGABRT` with the marker only in
frame 8 is not escalated. -/
theorem frames_beyond_bound_not_offered_witness :
    frames_libart_at_8[8]? = some (lit "libart.so+0x88") ∧
    (dump_backtrace_to_log (unwound frames_libart_at_8) (lit "  ")
      (mkState true true false SIGABRT)).force_coredump_generation = false :=
  ⟨by decide,
    (frames_beyond_bound_not_offered (unwound frames_libart_at_8) (lit "  ")
      (mkState true true false SIGABRT)).2 (by
        intro i t hi ht
        have hi7 : i < 7 := hi
        have hfr : (unwound frames_libart_at_8).frames = frames_libart_at_8 := rfl
        rw [hfr] at ht
        interval_cases i <;>
          · simp only [frames_libart_at_8, List.replicate, List.cons_append, List.nil_append,
              List.getElem?_cons_succ, List.getElem?_cons_zero, Option.some.injEq] at ht
            subst ht
            decide)⟩

/-- C4: when `victim_thread` is false, `dump_backtrace_to_log` leaves
`force_coredump_generation` unchanged, for every frame sequence, signal and
value of `coredump_enabled`. -/
theorem non_victim_dump_keeps_flag (backtrace : Backtrace) (pfx : CStr) (st : State)
    (hv : st.victim_thread = false) :
    (dump_backtrace_to_log backtrace pfx st).force_coredump_generation =
      st.force_coredump_generation := by
  unfold dump_backtrace_to_log
  rw [dump_frames_gate_closed pfx backtrace.frames 0 st (by simp [hv])]

/-- Witness for C4: a sibling thread with "libart.so+0x204" in frame 0 under
`SIGABRT`, escalation enabled. -/
theorem non_victim_dump_keeps_flag_witness :
    (mkState true false false SIGABRT).victim_thread = false ∧
    (dump_backtrace_to_log (unwound frames_libart_at_0) (lit "  ")
      (mkState true false false SIGABRT)).force_coredump_generation = false :=
  ⟨rfl, non_victim_dump_keeps_flag (unwound frames_libart_at_0) (lit "  ")
    (mkState true false false SIGABRT) rfl⟩

/-- C5: when `coredump_enabled` is false, `dump_backtrace_to_log` leaves
`force_coredump_generation` unchanged, for every frame sequence, signal and
value of `victim_thread`. -/
theorem disabled_dump_keeps_flag (backtrace : Backtrace) (pfx : CStr) (st : State)
    (he : st.coredump_enabled = false) :
    (dump_backtrace_to_log backtrace pfx st).force_coredump_generation =
      st.force_coredump_generation := by
  unfold dump_backtrace_to_log
  rw [dump_frames_gate_closed pfx backtrace.frames 0 st (by simp [he])]

/-- Witness for C5: the victim thread with frame 3 "libart.so+0x88" under
`SIGABRT`, escalation disabled: the flag stays false. -/
theorem disabled_dump_keeps_flag_witness :
    (mkState false true false SIGABRT).coredump_enabled = false ∧
    (dump_backtrace_to_log (unwound frames_libart_at_3) (lit "  ")
      (mkState false true false SIGABRT)).force_coredump_generation = false :=
  ⟨rfl, disabled_dump_keeps_flag (unwound frames_libart_at_3) (lit "  ")
    (mkState false true false SIGABRT) rfl⟩

/-- C6: if frame 0 contains "libart" after lower-casing, a victim-thread dump
with escalation enabled and the flag false on entry ends with the flag true,
for every signal. -/
theorem marker_in_first_frame_escalates (backtrace : Backtrace) (pfx : CStr) (st : State)
    (t : CStr) (h0 : backtrace.frames[0]? = some t)
    (hm : LIB_ART_NAME <:+: t.map tolower)
    (he : st.coredump_enabled = true) (hv : st.victim_thread = true)
    (_hentry : st.force_coredump_generation = false) :
    (dump_backtrace_to_log backtrace pfx st).force_coredump_generation = true :=
  (dump_frames_force pfx backtrace.frames 0 st).mpr
    (Or.inr ⟨he, hv, 0, t, by decide, h0, hm, Or.inl rfl⟩)

/-- Witness for C6: frame 0 is "libart.so+0x204" and the signal is `SIGSEGV`. -/
theorem marker_in_first_frame_escalates_witness :
    (unwound frames_libart_at_0).frames[0]? = some (lit "libart.so+0x204") ∧
    (dump_backtrace_to_log (unwound frames_libart_at_0) (lit "  ")
      (mkState true true false SIGSEGV)).force_coredump_generation = true :=
  ⟨rfl, marker_in_first_frame_escalates (unwound frames_libart_at_0) (lit "  ")
    (mkState true true false SIGSEGV) (lit "libart.so+0x204") rfl (by decide) rfl rfl rfl⟩

/-- C7: if some frame at an index below 7 contains "libart" after lower-casing
and the signal is `SIGABRT`, a victim-thread dump with escalation enabled and
the flag false on entry ends with the flag true. -/
theorem marker_under_sigabrt_escalates (backtrace : Backtrace) (pfx : CStr) (st : State)
    (i : Nat) (t : CStr) (hi : i < MAX_FRAMES_FROM_TOP_TO_CHECK)
    (ht : backtrace.frames[i]? = some t) (hm : LIB_ART_NAME <:+: t.map tolower)
    (hs : st.coredump_signal = SIGABRT)
    (he : st.coredump_enabled = true) (hv : st.victim_thread = true)
    (_hentry : st.force_coredump_generation = false) :
    (dump_backtrace_to_log backtrace pfx st).force_coredump_generation = true :=
  (dump_frames_force pfx backtrace.frames 0 st).mpr
    (Or.inr ⟨he, hv, i, t, by omega, ht, hm, Or.inr hs⟩)

/-- Witness for C7: only frame 3, "libart.so+0x88", carries the marker. -/
theorem marker_under_sigabrt_escalates_witness :
    (unwound frames_libart_at_3).frames[3]? = some (lit "libart.so+0x88") ∧
    (dump_backtrace_to_log (unwound frames_libart_at_3) (lit "  ")
      (mkState true true false SIGABRT)).force_coredump_generation = true :=
  ⟨rfl, marker_under_sigabrt_escalates (unwound frames_libart_at_3) (lit "  ")
    (mkState true true false SIGABRT) 3 (lit "libart.so+0x88") (by decide) rfl (by decide)
    rfl rfl rfl rfl⟩

/-! ## Monotonicity and idempotence of the escalation flag -/

/-- C8: the escalation flag is monotonic: if `force_coredump_generation` is
true before `check_coredump_criteria`, `dump_backtrace_to_log`, `dump_thread`
or `dump_backtrace`, it is true after it, for every input. -/
theorem escalation_monotone (st : State) (hf : st.force_coredump_generation = true) :
    (∀ t n, (check_coredump_criteria t n st).force_coredump_generation = true) ∧
    (∀ backtrace pfx,
      (dump_backtrace_to_log backtrace pfx st).force_coredump_generation = true) ∧
    (∀ env pid tid, (dump_thread env pid tid st).force_coredump_generation = true) ∧
    (∀ env pid tid siblings,
      (dump_backtrace env pid tid siblings st).force_coredump_generation = true) := by
  refine ⟨fun t n => ?_, fun backtrace pfx => ?_, fun env pid tid => ?_,
    fun env pid tid siblings => ?_⟩
  · rw [check_force, hf]; rfl
  · exact (dump_frames_force pfx backtrace.frames 0 st).mpr (Or.inl hf)
  · exact dump_thread_force_of_force env pid tid st hf
  · obtain ⟨chunks, hh⟩ := dump_process_header_eq env pid st
    unfold dump_backtrace dump_process_footer _LOG
    refine foldl_dump_thread_force_of_force env pid siblings _ ?_
    refine dump_thread_force_of_force env pid tid _ ?_
    rw [hh]; exact hf

/-- Witness for C8: an escalated state under `SIGSEGV`, with a frame that
matches no rule and with a whole session over two threads. -/
theorem escalation_monotone_witness :
    (mkState true true true SIGSEGV).force_coredump_generation = true ∧
    (check_coredump_criteria (lit "libc.so+0x10") 0
      (mkState true true true SIGSEGV)).force_coredump_generation = true ∧
    (dump_backtrace env_two_threads 1 100 [101]
      (mkState true true true SIGSEGV)).force_coredump_generation = true :=
  ⟨rfl,
    (escalation_monotone (mkState true true true SIGSEGV) rfl).1 (lit "libc.so+0x10") 0,
    (escalation_monotone (mkState true true true SIGSEGV) rfl).2.2.2
      env_two_threads 1 100 [101]⟩

/-- C9: escalation is idempotent: applying `check_coredump_criteria` twice to
the same frame gives the same flag as applying it once; running
`dump_backtrace_to_log` again on the same frames once the flag is true adds no
record to the Android log (no call of `check_coredump_criteria`) and leaves the
flag as it was; and one run writes the flag at most once. -/
theorem escalation_idempotent :
    (∀ t n st,
      (check_coredump_criteria t n
          (check_coredump_criteria t n st)).force_coredump_generation =
        (check_coredump_criteria t n st).force_coredump_generation) ∧
    (∀ backtrace pfx st,
      (dump_backtrace_to_log backtrace pfx st).force_coredump_generation = true →
        (dump_backtrace_to_log backtrace pfx
            (dump_backtrace_to_log backtrace pfx st)).alog =
          (dump_backtrace_to_log backtrace pfx st).alog ∧
        (dump_backtrace_to_log backtrace pfx
            (dump_backtrace_to_log backtrace pfx st)).force_coredump_generation =
          (dump_backtrace_to_log backtrace pfx st).force_coredump_generation) ∧
    (∀ backtrace pfx st, ∃ new,
      (dump_backtrace_to_log backtrace pfx st).alog = st.alog ++ new ∧
        escalations new ≤ 1) := by
  refine ⟨fun t n st => ?_, fun backtrace pfx st h1 => ?_, fun backtrace pfx st => ?_⟩
  · rw [check_force, check_signal, check_force]
    cases st.force_coredump_generation <;>
      cases decide (has_marker t ∧ (n = 0 ∨ st.coredump_signal = SIGABRT)) <;> rfl
  · have hclosed := dump_frames_gate_closed pfx backtrace.frames 0
      (dump_backtrace_to_log backtrace pfx st) (by simp [h1])
    constructor
    · show (dump_frames pfx 0 backtrace.frames _).alog = _
      rw [hclosed]
    · show (dump_frames pfx 0 backtrace.frames _).force_coredump_generation = _
      rw [hclosed]
  · obtain ⟨new, h, _, he⟩ := dump_frames_alog pfx backtrace.frames 0 st
    exact ⟨new, h, he⟩

/-- Witness for C9: the victim thread with "libart.so+0x204" in frame 0 is
dumped twice; the second run logs nothing new and keeps the flag true. -/
theorem escalation_idempotent_witness :
    (dump_backtrace_to_log (unwound frames_libart_at_0) (lit "  ")
      (mkState true true false SIGSEGV)).force_coredump_generation = true ∧
    (dump_backtrace_to_log (unwound frames_libart_at_0) (lit "  ")
        (dump_backtrace_to_log (unwound frames_libart_at_0) (lit "  ")
          (mkState true true false SIGSEGV))).alog =
      [.checking 0 SIGSEGV, .first_frame_met] ∧
    (dump_backtrace_to_log (unwound frames_libart_at_0) (lit "  ")
        (dump_backtrace_to_log (unwound frames_libart_at_0) (lit "  ")
          (mkState true true false SIGSEGV))).force_coredump_generation = true :=
  ⟨by decide,
    (escalation_idempotent.2.1 (unwound frames_libart_at_0) (lit "  ")
      (mkState true true false SIGSEGV) (by decide)).1.trans (by decide),
    (escalation_idempotent.2.1 (unwound frames_libart_at_0) (lit "  ")
      (mkState true true false SIGSEGV) (by decide)).2.trans (by decide)⟩

/-! ## `victim_thread` in a `dump_backtrace` session -/

/-- C10, refuted as stated. With `victim_thread` true on entry, sibling 101 is
dumped after victim 100 with `victim_thread` still true: its frame 0 is offered
to `check_coredump_criteria` and escalates the session. With `victim_thread`
false on entry, the victim thread 101 itself is dumped with `victim_thread`
false: its frame 0, "libart.so+0x204", is not offered and the flag stays
false. -/
theorem dump_backtrace_victim_thread_counterexample :
    ((dump_thread env_two_threads 1 100
        (dump_process_header env_two_threads 1
          (mkState true true false SIGSEGV))).victim_thread = true ∧
      (dump_thread env_two_threads 1 100
        (dump_process_header env_two_threads 1
          (mkState true true false SIGSEGV))).force_coredump_generation = false ∧
      (dump_thread env_two_threads 1 100
        (dump_process_header env_two_threads 1
          (mkState true true false SIGSEGV))).alog = [.checking 0 SIGSEGV] ∧
      (dump_thread env_two_threads 1 101
        (dump_thread env_two_threads 1 100
          (dump_process_header env_two_threads 1
            (mkState true true false SIGSEGV)))).alog =
        [.checking 0 SIGSEGV, .checking 0 SIGSEGV, .first_frame_met] ∧
      (dump_backtrace env_two_threads 1 100 [101]
        (mkState true true false SIGSEGV)).force_coredump_generation = true) ∧
    ((dump_process_header env_two_threads 1
        (mkState true false false SIGSEGV)).victim_thread = false ∧
      (dump_backtrace env_two_threads 1 101 []
        (mkState true false false SIGSEGV)).alog = [] ∧
      (dump_backtrace env_two_threads 1 101 []
        (mkState true false false SIGSEGV)).force_coredump_generation = false) := by
  decide

/-- C10, amended: `dump_backtrace` never writes `victim_thread`. The victim
thread is dumped in the state left by the header and the sibling of rank `k`
in the state left by the victim and the first `k` siblings; in each of them,
and after the session, `victim_thread` has the value it had on entry. When
that value is false, the session adds no "checking" record to the Android log
(no frame of any thread is offered to `check_coredump_criteria`) and leaves
`force_coredump_generation` unchanged. -/
theorem dump_backtrace_keeps_victim_thread (env : Env) (pid tid : Int)
    (siblings : List Int) (st : State) :
    (dump_process_header env pid st).victim_thread = st.victim_thread ∧
    (∀ k, ((siblings.take k).foldl (fun s sibling => dump_thread env pid sibling s)
        (dump_thread env pid tid (dump_process_header env pid st))).victim_thread =
      st.victim_thread) ∧
    (dump_backtrace env pid tid siblings st).victim_thread = st.victim_thread ∧
    (st.victim_thread = false →
      (dump_backtrace env pid tid siblings st).force_coredump_generation =
        st.force_coredump_generation ∧
      ∃ new, (dump_backtrace env pid tid siblings st).alog = st.alog ++ new ∧
        checks new = 0) := by
  obtain ⟨chunks, hh⟩ := dump_process_header_eq env pid st
  have hhv : (dump_process_header env pid st).victim_thread = st.victim_thread := by
    rw [hh]
  refine ⟨hhv, fun k => ?_, ?_, fun hv => ?_⟩
  · rw [foldl_dump_thread_victim, dump_thread_victim, hhv]
  · unfold dump_backtrace dump_process_footer _LOG
    show State.victim_thread (List.foldl _ _ siblings) = _
    rw [foldl_dump_thread_victim, dump_thread_victim, hhv]
  · obtain ⟨hf1, new1, ha1, hc1⟩ :=
      dump_thread_non_victim env pid tid (dump_process_header env pid st) (by rw [hhv, hv])
    obtain ⟨hf2, new2, ha2, hc2⟩ :=
      foldl_dump_thread_non_victim env pid siblings
        (dump_thread env pid tid (dump_process_header env pid st))
        (by rw [dump_thread_victim, hhv, hv])
    have hhf : (dump_process_header env pid st).force_coredump_generation =
        st.force_coredump_generation := by rw [hh]
    have hha : (dump_process_header env pid st).alog = st.alog := by rw [hh]
    unfold dump_backtrace dump_process_footer _LOG
    refine ⟨?_, new1 ++ new2, ?_, ?_⟩
    · show State.force_coredump_generation (List.foldl _ _ siblings) = _
      rw [hf2, hf1, hhf]
    · show State.alog (List.foldl _ _ siblings) = _
      rw [ha2, ha1, hha, List.append_assoc]
    · simp only [checks, List.countP_append] at hc1 hc2 ⊢
      omega

/-- Witness for C10 as amended: a session over victim 101 and sibling 100 with
`victim_thread` false on entry keeps the flag false although frame 0 of thread
101 is "libart.so+0x204" and escalation is enabled. -/
theorem dump_backtrace_keeps_victim_thread_witness :
    (mkState true false false SIGABRT).victim_thread = false ∧
    (dump_backtrace env_two_threads 1 101 [100]
      (mkState true false false SIGABRT)).victim_thread = false ∧
    (dump_backtrace env_two_threads 1 101 [100]
      (mkState true false false SIGABRT)).force_coredump_generation = false :=
  ⟨rfl,
    (dump_backtrace_keeps_victim_thread env_two_threads 1 101 [100]
      (mkState true false false SIGABRT)).2.2.1,
    ((dump_backtrace_keeps_victim_thread env_two_threads 1 101 [100]
      (mkState true false false SIGABRT)).2.2.2 rfl).1⟩

/-! ## The text written by a `dump_backtrace` session -/

/-- C11: the log of `dump_backtrace` is, after what was there before, the
process header, the block of the victim thread, one block per sibling in
iteration order, and the process footer, whatever unwinds fail; the banner of
every thread is in it and the footer is its last chunk. For a sibling set the
iteration order is the ascending order of its tids. -/
theorem dump_backtrace_log_order (env : Env) (pid tid : Int) (siblings : List Int)
    (st : State) :
    (dump_backtrace env pid tid siblings st).log =
      st.log ++ (process_header env pid ++ thread_block env pid tid ++
        siblings.flatMap (thread_block env pid) ++ [process_footer pid]) ∧
    (∀ t ∈ tid :: siblings,
      thread_banner (thread_name env t) t ∈ (dump_backtrace env pid tid siblings st).log) ∧
    (dump_backtrace env pid tid siblings st).log.getLast? =
      some (lit "\n----- end " ++ fmt_d pid ++ lit " -----\n") ∧
    (∀ s : Finset Int, (set_order s).Sorted (fun a b => a < b) ∧
      (∀ t, t ∈ set_order s ↔ t ∈ s) ∧
      (dump_backtrace env pid tid (set_order s) st).log =
        st.log ++ (process_header env pid ++ thread_block env pid tid ++
          (set_order s).flatMap (thread_block env pid) ++ [process_footer pid])) := by
  have hlog := dump_backtrace_log env pid tid siblings st
  refine ⟨hlog, fun t ht => ?_, ?_, fun s => ⟨?_, fun t => ?_, ?_⟩⟩
  · rw [hlog]
    have hmem : thread_banner (thread_name env t) t ∈ thread_block env pid t := by
      unfold thread_block; exact List.mem_cons_self _ _
    rcases List.mem_cons.mp ht with h | h
    · subst h
      simp only [List.mem_append]
      exact Or.inr (Or.inl (Or.inl (Or.inr hmem)))
    · simp only [List.mem_append, List.mem_flatMap]
      exact Or.inr (Or.inl (Or.inr ⟨t, h, hmem⟩))
  · rw [hlog, ← List.append_assoc, List.getLast?_append]
    rfl
  · exact Finset.sort_sorted_lt s
  · exact Finset.mem_sort _
  · exact dump_backtrace_log env pid tid (set_order s) st

/-- C12: if the unwind of a sibling fails, `dump_thread` for that sibling
leaves `force_coredump_generation` unchanged; the block of the victim thread
is the one written when the unwind of the sibling succeeds instead, at the
same place of the session log; and the log ends with the process footer. -/
theorem sibling_unwind_failure_is_local (env : Env) (pid tid sib : Int)
    (siblings : List Int) (frames : List CStr) (st : State)
    (hfail : (env.create pid sib).unwind_ok = false) (hne : sib ≠ tid) :
    (∀ s : State, (dump_thread env pid sib s).force_coredump_generation =
      s.force_coredump_generation) ∧
    thread_block (with_unwound env sib frames) pid tid = thread_block env pid tid ∧
    (∃ rest, (dump_backtrace env pid tid siblings st).log =
      st.log ++ (process_header env pid ++ thread_block env pid tid ++ rest ++
        [process_footer pid])) ∧
    (∃ rest, (dump_backtrace (with_unwound env sib frames) pid tid siblings st).log =
      st.log ++ (process_header env pid ++ thread_block env pid tid ++ rest ++
        [process_footer pid])) := by
  have hblock : thread_block (with_unwound env sib frames) pid tid =
      thread_block env pid tid := by
    unfold thread_block with_unwound thread_name
    simp [Ne.symm hne]
  refine ⟨fun s => ?_, hblock,
    ⟨siblings.flatMap (thread_block env pid), dump_backtrace_log env pid tid siblings st⟩,
    ⟨siblings.flatMap (thread_block (with_unwound env sib frames) pid), ?_⟩⟩
  · rw [dump_thread_banner, if_neg (by simp [hfail])]
    rfl
  · rw [dump_backtrace_log, hblock]
    rfl

/-- Witness for C12: the unwind of sibling 101 fails while victim 100 unwinds
to `frames_libart_at_3`. -/
theorem sibling_unwind_failure_is_local_witness :
    (env_sibling_fails.create 1 101).unwind_ok = false ∧
    (dump_thread env_sibling_fails 1 101
      (mkState true true false SIGABRT)).force_coredump_generation = false ∧
    thread_block (with_unwound env_sibling_fails 101 frames_libart_at_0) 1 100 =
      thread_block env_sibling_fails 1 100 :=
  ⟨rfl,
    (sibling_unwind_failure_is_local env_sibling_fails 1 100 101 [101] frames_libart_at_0
      (mkState true true false SIGABRT) rfl (by decide)).1 (mkState true true false SIGABRT),
    (sibling_unwind_failure_is_local env_sibling_fails 1 100 101 [101] frames_libart_at_0
      (mkState true true false SIGABRT) rfl (by decide)).2.1⟩

/-- C13, refuted as stated: when the unwind of thread 101 fails, the log sink
receives the banner and nothing else; the error description goes to the
Android log through `ALOGE`. -/
theorem unwind_failure_not_in_log_sink_counterexample :
    (env_sibling_fails.create 1 101).unwind_ok = false ∧
    (dump_thread env_sibling_fails 1 101 (mkState true true false SIGABRT)).log =
      [lit "\n\"worker\" sysTid=101\n"] ∧
    (dump_thread env_sibling_fails 1 101 (mkState true true false SIGABRT)).alog =
      [.unwind_failed 101 (lit "Thread doesn't exist")] := by
  decide

/-- C13, amended: when `Unwind(0)` returns false, `dump_thread` writes the
banner and nothing else to the log sink (no error line, no frame line), writes
exactly one `ALOGE` record with the tid and the error description of the
unwinder to the Android log, changes no global, and returns. -/
theorem unwind_failure_goes_to_android_log (env : Env) (pid tid : Int) (st : State)
    (hfail : (env.create pid tid).unwind_ok = false) :
    dump_thread env pid tid st =
      { st with
        log := st.log ++ [thread_banner (thread_name env tid) tid]
        alog := st.alog ++ [.unwind_failed tid (env.create pid tid).error] } := by
  rw [dump_thread_banner, if_neg (by simp [hfail])]
  rfl

/-- Witness for C13 as amended: thread 101 of `env_sibling_fails`. -/
theorem unwind_failure_goes_to_android_log_witness :
    (env_sibling_fails.create 1 101).unwind_ok = false ∧
    dump_thread env_sibling_fails 1 101 (mkState true true false SIGABRT) =
      { mkState true true false SIGABRT with
        log := [thread_banner (thread_name env_sibling_fails 101) 101]
        alog := [.unwind_failed 101 (lit "Thread doesn't exist")] } :=
  ⟨rfl, unwind_failure_goes_to_android_log env_sibling_fails 1 101
    (mkState true true false SIGABRT) rfl⟩

/-- C14: `dump_thread` writes to the log sink the banner of the thread first
and then only frame lines, none of which is a banner, so exactly one banner,
whether the unwind succeeds or fails; a `dump_backtrace` session over a victim
and `N - 1` siblings writes exactly `N` banners, each at the head of the block
of its own thread. -/
theorem one_banner_per_thread (env : Env) (pid tid : Int) (siblings : List Int)
    (st : State) :
    (∃ lines, (dump_thread env pid tid st).log =
        st.log ++ (lit "\n\"" ++ thread_name env tid ++ lit "\" sysTid=" ++ fmt_d tid ++
          lit "\n") :: lines ∧
      is_banner (lit "\n\"" ++ thread_name env tid ++ lit "\" sysTid=" ++ fmt_d tid ++
          lit "\n") = true ∧
      (∀ l ∈ lines, is_banner l = false) ∧
      lines = if (env.create pid tid).unwind_ok then
        (env.create pid tid).frames.map (frame_line (lit "  ")) else []) ∧
    (∃ new, (dump_backtrace env pid tid siblings st).log = st.log ++ new ∧
      new = process_header env pid ++ (tid :: siblings).flatMap (thread_block env pid) ++
        [process_footer pid] ∧
      new.countP is_banner = siblings.length + 1) := by
  constructor
  · refine ⟨_, dump_thread_log env pid tid st, is_banner_thread_banner _ _, ?_, rfl⟩
    intro l hl
    split_ifs at hl
    · obtain ⟨f, _, hf⟩ := List.mem_map.mp hl
      rw [← hf]; exact is_banner_frame_line f
    · cases hl
  · refine ⟨_, dump_backtrace_log env pid tid siblings st, by simp, ?_⟩
    rw [List.countP_append, List.countP_append, List.countP_append,
      countP_is_banner_process_header, countP_is_banner_thread_block,
      countP_is_banner_blocks]
    simp [is_banner_process_footer, Nat.add_comm]

/-- C15: for a backtrace with `n` frames `dump_backtrace_to_log` appends `n`
chunks to the log sink, the `i`-th being the prefix, the text of frame `i` and
a newline, both texts as "%s" prints them (that is, themselves when they hold
no NUL byte); the chunks do not depend on the globals. -/
theorem frame_lines_written (backtrace : Backtrace) (pfx : CStr) (st : State) :
    (dump_backtrace_to_log backtrace pfx st).log =
      st.log ++ backtrace.frames.map (fun f => c_str pfx ++ c_str f ++ lit "\n") ∧
    (backtrace.frames.map (fun f => c_str pfx ++ c_str f ++ lit "\n")).length =
      backtrace.frames.length ∧
    (∀ i : Nat, (backtrace.frames.map (fun f => c_str pfx ++ c_str f ++ lit "\n"))[i]? =
      (backtrace.frames[i]?).map (fun f => c_str pfx ++ c_str f ++ lit "\n")) ∧
    (0 ∉ pfx → (∀ f ∈ backtrace.frames, 0 ∉ f) →
      (dump_backtrace_to_log backtrace pfx st).log =
        st.log ++ backtrace.frames.map (fun f => pfx ++ f ++ lit "\n")) ∧
    (∀ enabled victim force signal,
      (dump_backtrace_to_log backtrace pfx
        { st with coredump_enabled := enabled, victim_thread := victim,
                  force_coredump_generation := force, coredump_signal := signal }).log =
      (dump_backtrace_to_log backtrace pfx st).log) := by
  have hlog : ∀ s : State, (dump_backtrace_to_log backtrace pfx s).log =
      s.log ++ backtrace.frames.map (fun f => c_str pfx ++ c_str f ++ lit "\n") :=
    fun s => dump_frames_log pfx backtrace.frames 0 s
  refine ⟨hlog st, by simp, fun i => by simp, fun hp hf => ?_, fun _ _ _ _ => ?_⟩
  · rw [hlog st]
    congr 1
    apply List.map_congr_left
    intro f hmem
    rw [c_str_of_no_nul pfx hp, c_str_of_no_nul f (hf f hmem)]
  · rw [hlog, hlog]

/-- Witness for C15: the three lines of a thread dumped with prefix "  ". -/
theorem frame_lines_written_witness :
    (0 ∉ lit "  " ∧ ∀ f ∈ (unwound frames_libart_at_0).frames, 0 ∉ f) ∧
    (dump_backtrace_to_log (unwound frames_libart_at_0) (lit "  ")
      (mkState true true false SIGABRT)).log =
      [lit "  libart.so+0x204\n", lit "  libc.so+0x10\n"] :=
  ⟨by decide,
    ((frame_lines_written (unwound frames_libart_at_0) (lit "  ")
      (mkState true true false SIGABRT)).2.2.2.1 (by decide) (by decide)).trans (by decide)⟩

/-! ## Names read from the `/proc` records -/

/-- C16: the name in the banner of `dump_thread` is the first line of the comm
record of the thread, read through the 1024-byte buffer and without its line
terminator, as "%s" prints it (the line itself when the record holds no NUL
byte); when the record is missing, unreadable or empty the name is
"<unknown>"; in every case the banner is written and followed by the outcome
of the unwind, the frame lines or the `ALOGE` record. -/
theorem thread_name_is_first_line (env : Env) (pid tid : Int) (st : State) :
    (dump_thread env pid tid st).log =
      st.log ++ (lit "\n\"" ++ c_str (spec_thread_name env tid) ++ lit "\" sysTid=" ++
          fmt_d tid ++ lit "\n") ::
        (if (env.create pid tid).unwind_ok then
          (env.create pid tid).frames.map (frame_line (lit "  ")) else []) ∧
    (∀ content, env.comm tid = some content → content ≠ [] → 0 ∉ content →
      c_str (spec_thread_name env tid) = (content.takeWhile (fun c => c != 10)).take 1023) ∧
    (env.comm tid = none ∨ env.comm tid = some [] →
      c_str (spec_thread_name env tid) = lit "<unknown>") ∧
    ((env.create pid tid).unwind_ok = false →
      (dump_thread env pid tid st).alog =
        st.alog ++ [.unwind_failed tid (env.create pid tid).error]) := by
  have hs : c_str (lit "<unknown>") = lit "<unknown>" := by decide
  refine ⟨?_, fun content hc hne h0 => ?_, fun h => ?_, fun hfail => ?_⟩
  · rw [dump_thread_log, thread_block, thread_banner, thread_name_eq]
  · have hsub : 0 ∉ (content.takeWhile (fun c => c != 10)).take 1023 :=
      fun hm => h0 ((List.takeWhile_sublist _).subset (List.mem_of_mem_take hm))
    simp only [spec_thread_name, hc, hne, if_false, spec_first_line]
    exact c_str_of_no_nul _ hsub
  · rcases h with h | h
    · simp [spec_thread_name, h, hs]
    · simp [spec_thread_name, h, hs]
  · rw [dump_thread_banner, if_neg (by simp [hfail])]
    rfl

/-- Witness for C16: thread 100 of `env_sibling_fails` has the comm record
"main" with a newline, thread 100 of `env_two_threads` has none. -/
theorem thread_name_is_first_line_witness :
    c_str (spec_thread_name env_sibling_fails 100) = lit "main" ∧
    c_str (spec_thread_name env_two_threads 100) = lit "<unknown>" ∧
    (dump_thread env_two_threads 1 100 (mkState false false false SIGSEGV)).log =
      [lit "\n\"<unknown>\" sysTid=100\n", lit "  libc.so+0x10\n"] :=
  ⟨((thread_name_is_first_line env_sibling_fails 1 100
      (mkState false false false SIGSEGV)).2.1 (lit "main\n") rfl (by decide)
      (by decide)).trans (by decide),
    (thread_name_is_first_line env_two_threads 1 100
      (mkState false false false SIGSEGV)).2.2.1 (Or.inl rfl),
    (thread_name_is_first_line env_two_threads 1 100
      (mkState false false false SIGSEGV)).1.trans (by decide)⟩

/-- C17: the code at a command-line record holding a newline. For the record
"foo" with its newline, `dump_process_header` writes the chunk "Cmd line: foo"
followed by two newlines, the one of the record and the one of the format,
where the first line without its terminator gives a single newline;
`dump_thread` strips that newline from the comm record, `dump_process_header`
does not. -/
theorem process_header_keeps_newline :
    (dump_process_header env_cmdline_newline 1 (mkState false false false SIGSEGV)).log =
      [lit "\n\n----- pid 1 at 2016-01-01 00:00:00 -----\n", lit "Cmd line: foo\n\n",
        lit "ABI: 'arm'\n"] ∧
    spec_process_header env_cmdline_newline 1 =
      [lit "\n\n----- pid 1 at 2016-01-01 00:00:00 -----\n", lit "Cmd line: foo\n",
        lit "ABI: 'arm'\n"] ∧
    (dump_process_header env_cmdline_newline 1 (mkState false false false SIGSEGV)).log ≠
      spec_process_header env_cmdline_newline 1 ∧
    thread_name { env_two_threads with comm := fun _ => some (lit "foo\n") } 100 =
      lit "foo" := by
  decide

/-- The header as `dump_process_header` writes it: the pid line, then the
command line exactly when the record can be opened and is not empty, then the
ABI line. The command line shows what "%s" prints of the bytes `fgets`
returned: the record up to and including its first newline, at most 1023
bytes, cut at the first NUL. For a record without a newline this is the first
line of the record, as in the specification. -/
theorem process_header_written (env : Env) (pid : Int) (st : State) :
    (env.cmdline pid = none ∨ env.cmdline pid = some [] →
      (dump_process_header env pid st).log =
        st.log ++ [lit "\n\n----- pid " ++ fmt_d pid ++ lit " at " ++ c_str env.timestr ++
            lit " -----\n",
          lit "ABI: '" ++ c_str env.ABI_STRING ++ lit "'\n"]) ∧
    (∀ content, env.cmdline pid = some content → content ≠ [] →
      (dump_process_header env pid st).log =
        st.log ++ [lit "\n\n----- pid " ++ fmt_d pid ++ lit " at " ++ c_str env.timestr ++
            lit " -----\n",
          lit "Cmd line: " ++ c_str ((fgets_line content).take 1023) ++ lit "\n",
          lit "ABI: '" ++ c_str env.ABI_STRING ++ lit "'\n"]) ∧
    ((∀ content, env.cmdline pid = some content → 10 ∉ content) →
      (dump_process_header env pid st).log = st.log ++ spec_process_header env pid) := by
  rw [dump_process_header_log]
  refine ⟨fun h => ?_, fun content hc hne => ?_, fun hno => ?_⟩
  · rcases h with h | h
    · simp [process_header, h, pid_line, abi_line]
    · simp [process_header, h, pid_line, abi_line]
  · simp [process_header, hc, hne, pid_line, abi_line]
  · unfold process_header spec_process_header spec_first_line
    cases hc : env.cmdline pid with
    | none => rfl
    | some content =>
      obtain ⟨h1, h2⟩ := fgets_line_of_no_newline content (hno content hc)
      simp only [h1, h2]

/-- The header for the record "app_process", NUL, "-Xzygote", NUL, which has
no newline: the command line is printed up to its first NUL. -/
theorem process_header_written_app_process :
    (dump_process_header env_sibling_fails 1 (mkState false false false SIGSEGV)).log =
      [lit "\n\n----- pid 1 at 2016-01-01 00:00:00 -----\n", lit "Cmd line: app_process\n",
        lit "ABI: 'arm'\n"] :=
  ((process_header_written env_sibling_fails 1 (mkState false false false SIGSEGV)).2.1
    (lit "app_process" ++ [0] ++ lit "-Xzygote" ++ [0]) rfl (by decide)).trans (by decide)

/-! ## Closed form, cost and case of the escalation policy -/

/-- C18: for a victim-thread dump with escalation enabled and the flag false
on entry, the flag after `dump_backtrace_to_log` is true exactly when some
frame at an index below both the frame count and 7 contains "libart" after
lower-casing and either that index is 0 or the signal is `SIGABRT`. -/
theorem victim_dump_closed_form (backtrace : Backtrace) (pfx : CStr) (st : State)
    (he : st.coredump_enabled = true) (hv : st.victim_thread = true)
    (hf : st.force_coredump_generation = false) :
    (dump_backtrace_to_log backtrace pfx st).force_coredump_generation = true ↔
      ∃ i, i < min backtrace.frames.length MAX_FRAMES_FROM_TOP_TO_CHECK ∧
        ∃ t, backtrace.frames[i]? = some t ∧ LIB_ART_NAME <:+: t.map tolower ∧
          (i = 0 ∨ st.coredump_signal = SIGABRT) := by
  unfold dump_backtrace_to_log
  rw [dump_frames_force]
  constructor
  · rintro (h | ⟨_, _, j, t, hj, ht, hm, hz⟩)
    · rw [hf] at h; cases h
    · have hlen : j < backtrace.frames.length := by
        obtain ⟨h, _⟩ := List.getElem?_eq_some_iff.mp ht
        exact h
      refine ⟨j, by rw [lt_min_iff]; exact ⟨hlen, by omega⟩, t, ht, hm, ?_⟩
      rcases hz with hz | hz
      · exact Or.inl (by omega)
      · exact Or.inr hz
  · rintro ⟨i, hi, t, ht, hm, hz⟩
    rw [lt_min_iff] at hi
    refine Or.inr ⟨he, hv, i, t, by omega, ht, hm, ?_⟩
    rcases hz with hz | hz
    · exact Or.inl (by omega)
    · exact Or.inr hz

/-- Witness for C18: frames "libc.so+0x10", "libart.so+0x204" under `SIGSEGV`
leave the flag false. -/
theorem victim_dump_closed_form_witness :
    (dump_backtrace_to_log (unwound [lit "libc.so+0x10", lit "libart.so+0x204"]) (lit "  ")
      (mkState true true false SIGSEGV)).force_coredump_generation = false ∧
    ¬ ∃ i, i < min (unwound [lit "libc.so+0x10", lit "libart.so+0x204"]).frames.length
          MAX_FRAMES_FROM_TOP_TO_CHECK ∧
        ∃ t, (unwound [lit "libc.so+0x10", lit "libart.so+0x204"]).frames[i]? = some t ∧
          LIB_ART_NAME <:+: t.map tolower ∧
          (i = 0 ∨ (mkState true true false SIGSEGV).coredump_signal = SIGABRT) :=
  ⟨by decide, fun h =>
    absurd ((victim_dump_closed_form (unwound [lit "libc.so+0x10", lit "libart.so+0x204"])
      (lit "  ") (mkState true true false SIGSEGV) rfl rfl rfl).mpr h) (by decide)⟩

/-- C19, refuted as stated: with `victim_thread` true on entry and no marker
in any frame, a session over two threads of four frames each calls
`check_coredump_criteria` eight times. -/
theorem session_checks_exceed_bound_counterexample :
    checks (dump_backtrace env_plain_threads 1 100 [101]
      (mkState true true false SIGSEGV)).alog = 8 ∧
    ¬ checks (dump_backtrace env_plain_threads 1 100 [101]
      (mkState true true false SIGSEGV)).alog ≤ MAX_FRAMES_FROM_TOP_TO_CHECK := by
  decide

/-- C19, amended: the lookahead is bounded per thread, not per session. One
`dump_backtrace_to_log` call makes at most 7 calls of
`check_coredump_criteria`, whatever the frame count, and a `dump_backtrace`
session makes at most 7 per thread dumped, that is, 7 times the number of
siblings plus one. -/
theorem checks_bounded_per_thread (env : Env) (pid tid : Int) (siblings : List Int)
    (backtrace : Backtrace) (pfx : CStr) (st : State) :
    (∃ new, (dump_backtrace_to_log backtrace pfx st).alog = st.alog ++ new ∧
      checks new ≤ MAX_FRAMES_FROM_TOP_TO_CHECK) ∧
    (∃ new, (dump_backtrace env pid tid siblings st).alog = st.alog ++ new ∧
      checks new ≤ MAX_FRAMES_FROM_TOP_TO_CHECK * (siblings.length + 1)) := by
  constructor
  · obtain ⟨new, h, hc⟩ := dump_frames_checks pfx backtrace.frames 0 st
    exact ⟨new, h, by omega⟩
  · obtain ⟨chunks, hh⟩ := dump_process_header_eq env pid st
    have hha : (dump_process_header env pid st).alog = st.alog := by rw [hh]
    obtain ⟨new1, ha1, hc1⟩ := dump_thread_checks env pid tid (dump_process_header env pid st)
    obtain ⟨new2, ha2, hc2⟩ := foldl_dump_thread_checks env pid siblings
      (dump_thread env pid tid (dump_process_header env pid st))
    refine ⟨new1 ++ new2, ?_, ?_⟩
    · unfold dump_backtrace dump_process_footer _LOG
      show State.alog (List.foldl _ _ siblings) = _
      rw [ha2, ha1, hha, List.append_assoc]
    · simp only [checks, List.countP_append] at hc1 hc2 ⊢
      rw [Nat.mul_succ]
      omega

/-- C20: marker matching ignores case: `check_coredump_criteria` returns the
same state for a frame text, for its lower-cased form and for its upper-cased
form; so "LibART.so" and "LIBART" trigger exactly when "libart.so" and
"libart" do. -/
theorem marker_match_ignores_case (t : CStr) (n : Int) (st : State) :
    check_coredump_criteria (t.map tolower) n st = check_coredump_criteria t n st ∧
    check_coredump_criteria (t.map toupper) n st = check_coredump_criteria t n st ∧
    check_coredump_criteria (lit "LibART.so") n st =
      check_coredump_criteria (lit "libart.so") n st ∧
    check_coredump_criteria (lit "LIBART") n st =
      check_coredump_criteria (lit "libart") n st := by
  have hlow : ∀ u : CStr, (u.map tolower).map tolower = u.map tolower := by
    intro u
    rw [List.map_map]
    apply List.map_congr_left
    intro c _
    simp only [Function.comp, tolower]
    split_ifs <;> omega
  have hup : ∀ u : CStr, (u.map toupper).map tolower = u.map tolower := by
    intro u
    rw [List.map_map]
    apply List.map_congr_left
    intro c _
    simp only [Function.comp, tolower, toupper]
    split_ifs <;> omega
  have hcheck : ∀ u v : CStr, u.map tolower = v.map tolower →
      check_coredump_criteria u n st = check_coredump_criteria v n st := by
    intro u v huv
    unfold check_coredump_criteria
    rw [huv]
  exact ⟨hcheck _ _ (hlow t), hcheck _ _ (hup t), hcheck _ _ (by decide),
    hcheck _ _ (by decide)⟩

end Debuggerd
